import Mathlib

/-!
Shallow embedding of the FoodOptimizer backend
(`nutrition_constraints.py` and `solver.py`) and verification of the
spec's claims against it.

Python floats are modelled by `Val`: an exact rational together with the
IEEE special points `+inf`, `-inf` and `nan`; comparisons and arithmetic
follow IEEE semantics on those points (every `nan` comparison is false,
`0 * inf = nan`, `inf + (-inf) = nan`).  Python strings are Lean
`String`s; the character-level work happens on `List Char` (`String.data`).
Python `dict`s are association lists in insertion order.  Exceptions are
modelled with `Except`: `ValueError` / `KeyError` / `RuntimeError`
carrying the message built by the source code.
-/

set_option autoImplicit false

/- `Rat.add` / `Rat.mul` / `Rat.neg` are `@[irreducible]` upstream; re-open
them so that concrete runs of the embedded code reduce under `decide`. -/
set_option allowUnsafeReducibility true in
attribute [semireducible] Rat.add Rat.mul Rat.neg Rat.sub

deriving instance DecidableEq for Except

namespace FoodOpt

/-- Model of a Python `float` value: a rational, `inf`, `-inf` or `nan`. -/
inductive Val where
  | num (q : ℚ)
  | inf
  | negInf
  | nan
  deriving DecidableEq

namespace Val

/-- IEEE `<` on modelled floats: any comparison with `nan` is false. -/
def lt : Val → Val → Bool
  | num a, num b => a < b
  | num _, inf => true
  | negInf, num _ => true
  | negInf, inf => true
  | _, _ => false

/-- IEEE `≤` on modelled floats. -/
def le : Val → Val → Bool
  | num a, num b => a ≤ b
  | num _, inf => true
  | negInf, num _ => true
  | negInf, inf => true
  | inf, inf => true
  | negInf, negInf => true
  | _, _ => false

/-- IEEE negation. -/
def neg : Val → Val
  | num a => num (-a)
  | inf => negInf
  | negInf => inf
  | nan => nan

/-- IEEE multiplication (`0 * ±inf = nan`, `nan` absorbs). -/
def mul : Val → Val → Val
  | num a, num b => num (a * b)
  | num a, inf => if a = 0 then nan else if 0 < a then inf else negInf
  | inf, num a => if a = 0 then nan else if 0 < a then inf else negInf
  | num a, negInf => if a = 0 then nan else if 0 < a then negInf else inf
  | negInf, num a => if a = 0 then nan else if 0 < a then negInf else inf
  | inf, inf => inf
  | inf, negInf => negInf
  | negInf, inf => negInf
  | negInf, negInf => inf
  | nan, _ => nan
  | _, nan => nan

/-- IEEE addition (`inf + (-inf) = nan`, `nan` absorbs). -/
def add : Val → Val → Val
  | num a, num b => num (a + b)
  | num _, inf => inf
  | inf, num _ => inf
  | num _, negInf => negInf
  | negInf, num _ => negInf
  | inf, inf => inf
  | negInf, negInf => negInf
  | inf, negInf => nan
  | negInf, inf => nan
  | nan, _ => nan
  | _, nan => nan

/-- `pandas.Series.sum` on a column: a left fold from `0` whose default
`skipna=True` drops `nan` ELEMENTS (an all-`nan` or empty column sums to
`0.0`; infinities are kept, so `inf` and `-inf` together still produce
`nan` through the accumulator). -/
def sumList (l : List Val) : Val :=
  l.foldl (fun acc v => if v = nan then acc else add acc v) (num 0)

/-- The plain IEEE left-fold sum in which a `nan` summand propagates (the
mathematical "sum over all rows" when a `nan` contribution is present). -/
def sumAll (l : List Val) : Val := l.foldl add (num 0)

/-- `isinf` of `math`: true on both infinities. -/
def isinf : Val → Bool
  | inf => true
  | negInf => true
  | _ => false

end Val

/-! ### Character / string helpers (the parts of `str` the code uses) -/

/-- Python `str.replace(' ', '')`: drop every space character. -/
def removeSpaces (cs : List Char) : List Char := cs.filter (fun c => ¬ c = ' ')

/-- Split a character list at every occurrence of characters satisfying `p`,
keeping empty chunks, as Python `str.split(sep)` does for a one-character
separator.  `splitChunks p [] = [[]]`. -/
def splitChunks (p : Char → Bool) : List Char → List (List Char)
  | [] => [[]]
  | c :: rest =>
    if p c then [] :: splitChunks p rest
    else
      match splitChunks p rest with
      | [] => [[c]]
      | s :: ss => (c :: s) :: ss

/-- Characters Python `str.strip()` removes at both ends. -/
def isPySpace (c : Char) : Bool :=
  c = ' ' ∨ c = '\t' ∨ c = '\n' ∨ c = '\r' ∨ c = '\x0b' ∨ c = '\x0c'

/-- Python `str.strip()`. -/
def pyStrip (cs : List Char) : List Char :=
  ((cs.dropWhile isPySpace).reverse.dropWhile isPySpace).reverse

/-- Value of a decimal digit character. -/
def digitVal (c : Char) : ℕ := c.toNat - 48

/-- Most-significant-digit-first accumulation of a digit-character list. -/
def natOfDigitChars (cs : List Char) : ℕ :=
  cs.foldl (fun a c => a * 10 + digitVal c) 0

/-- All characters are decimal digits. -/
def allDigits (cs : List Char) : Bool := cs.all Char.isDigit

/-! ### Model of Python's `float(str)` conversion

`pyFloat` models the conversion the source applies to the numeric fields
of a constraint line: an optional sign, then either a decimal significand
(`digits`, `digits.digits`, `.digits`, `digits.`) with an optional
`e`/`E` integer exponent, or the literals `inf` / `infinity` / `nan`
(the case-insensitive spellings and underscore digit separators Python
also accepts are not modelled; no claim depends on them). -/

/-- Unsigned decimal significand (no exponent). -/
def parseSig (cs : List Char) : Option ℚ :=
  match splitChunks (fun c => c = '.') cs with
  | [w] => if w ≠ [] ∧ allDigits w then some (natOfDigitChars w : ℚ) else none
  | [w, f] =>
    if (w ≠ [] ∨ f ≠ []) ∧ allDigits w ∧ allDigits f then
      some ((natOfDigitChars w : ℚ) + mkRat (natOfDigitChars f) (10 ^ f.length))
    else none
  | _ => none

/-- Signed integer (for the exponent part). -/
def parseSignedInt (cs : List Char) : Option ℤ :=
  match cs with
  | [] => none
  | c :: rest =>
    if c = '-' then
      if rest ≠ [] ∧ allDigits rest then some (-(natOfDigitChars rest : ℤ)) else none
    else if c = '+' then
      if rest ≠ [] ∧ allDigits rest then some (natOfDigitChars rest : ℤ) else none
    else if allDigits (c :: rest) then some (natOfDigitChars (c :: rest) : ℤ) else none

/-- Unsigned float: significand with optional exponent, or a special literal. -/
def pyFloatCore (cs : List Char) : Option Val :=
  if cs = "inf".data ∨ cs = "infinity".data then some .inf
  else if cs = "nan".data then some .nan
  else
    match splitChunks (fun c => c = 'e' ∨ c = 'E') cs with
    | [m] => (parseSig m).map Val.num
    | [m, e] => do
      let s ← parseSig m
      let x ← parseSignedInt e
      pure (Val.num (s * (if 0 ≤ x then ((10 ^ x.toNat : ℕ) : ℚ) else mkRat 1 (10 ^ (-x).toNat))))
    | _ => none

/-- Model of Python `float(s)` on a string with no surrounding whitespace. -/
def pyFloat (s : String) : Option Val :=
  match s.data with
  | [] => none
  | c :: rest =>
    if c = '-' then (pyFloatCore rest).map Val.neg
    else if c = '+' then pyFloatCore rest
    else pyFloatCore (c :: rest)

/-! ### `NutrientConstraint` (nutrition_constraints.py lines 6-48) -/

/-- The single error type of the Python backend's raised exceptions. -/
inductive PyErr where
  | valueError (msg : String)
  | keyError (key : String)
  | runtimeError (msg : String)
  deriving DecidableEq

/-- `NutrientConstraint` dataclass: field defaults `name=""`, `min_g=0.0`,
`max_g=math.inf`. -/
structure NutrientConstraint where
  name : String := ""
  min_g : Val := .num 0
  max_g : Val := .inf
  deriving DecidableEq

namespace NutrientConstraint

/-- `NutrientConstraint.validate`.  The `valid_nutrients` argument follows
Python truthiness: an empty iterable disables the membership check. -/
def validate (c : NutrientConstraint) (valid_nutrients : Option (List String)) :
    Except PyErr Unit := do
  if c.name = "" then
    throw (.valueError "name must be non-empty")
  match valid_nutrients with
  | some (v :: vs) =>
    if ¬ c.name ∈ (v :: vs) then
      throw (.valueError "name must be within the list of valid nutrients provided")
  | _ => pure ()
  if Val.lt c.min_g (.num 0) ∨ Val.lt c.max_g (.num 0) then
    throw (.valueError "min_g and max_g must be non-negative")
  if Val.lt c.max_g c.min_g then
    throw (.valueError "max_g must be >= min_g")

/-- `NutrientConstraint.from_string`, parameterised by the float-conversion
model `pf` (instantiated with `pyFloat`).  Removes spaces, splits on commas,
reads `-` as `0` in the min position and as `+inf` in the max position,
then validates. -/
def from_string (pf : String → Option Val) (input : String)
    (valid_nutrients : Option (List String) := none) :
    Except PyErr NutrientConstraint := do
  match splitChunks (fun c => c = ',') (removeSpaces input.data) with
  | [f0, f1, f2] =>
    let min_g ← (if f1 = ['-'] then pure (Val.num 0) else
      match pf (String.mk f1) with
      | some v => pure v
      | none => throw (.valueError ("could not convert string to float: " ++ String.mk f1)))
    let max_g ← (if f2 = ['-'] then pure Val.inf else
      match pf (String.mk f2) with
      | some v => pure v
      | none => throw (.valueError ("could not convert string to float: " ++ String.mk f2)))
    let obj : NutrientConstraint := ⟨String.mk f0, min_g, max_g⟩
    obj.validate valid_nutrients
    pure obj
  | _ =>
    throw (.valueError "incorrect input, expected 3 elements in the form of [Name],[min_g],[max_g]")

end NutrientConstraint

/-! ### `NutrientConstraints` (nutrition_constraints.py lines 50-119) -/

/-- Insert-or-overwrite in an insertion-ordered association list, as
assignment into a Python `dict`. -/
def dictInsert {α : Type} [DecidableEq α] {β : Type} (l : List (α × β)) (k : α) (v : β) :
    List (α × β) :=
  match l with
  | [] => [(k, v)]
  | (k', v') :: rest => if k' = k then (k, v) :: rest else (k', v') :: dictInsert rest k v

/-- First-match lookup in an association list, as Python `dict` indexing
(duplicate keys only ever carry equal values in this development). -/
def dictGet {α : Type} [DecidableEq α] {β : Type} (l : List (α × β)) (k : α) : Option β :=
  match l with
  | [] => none
  | (k', v') :: rest => if k' = k then some v' else dictGet rest k

/-- `NutrientConstraints`: optional allow-list plus the insertion-ordered
`name → NutrientConstraint` dictionary. -/
structure NutrientConstraints where
  allowed : Option (List String) := none
  nutrients : List (String × NutrientConstraint) := []
  deriving DecidableEq

namespace NutrientConstraints

/-- `NutrientConstraints.upsert`.  Faithful to the source: the freshly built
`NutrientConstraint` is constructed WITHOUT a `name=` argument, so its name
is the dataclass default `""`, and `validate` is called on it. -/
def upsert (c : NutrientConstraints) (nutrient : String)
    (min_g : Val := .num 0) (max_g : Option Val := none) :
    Except PyErr NutrientConstraints := do
  match c.allowed with
  | some l =>
    if ¬ nutrient ∈ l then
      throw (.valueError ("'" ++ nutrient ++ "' is not in allowed nutrients"))
  | none => pure ()
  let max_val : Val := match max_g with
    | none => .inf
    | some v => v
  let nc : NutrientConstraint := { min_g := min_g, max_g := max_val }
  nc.validate none
  pure { c with nutrients := dictInsert c.nutrients nutrient nc }

/-- `NutrientConstraints.from_dict`: repeated `upsert` over the payload. -/
def from_dict (payload : List (String × (Val × Option Val)))
    (allowed_nutrients : Option (List String) := none) :
    Except PyErr NutrientConstraints :=
  payload.foldlM (fun inst p => inst.upsert p.1 p.2.1 p.2.2)
    { allowed := allowed_nutrients, nutrients := [] }

/-- `NutrientConstraints.read_from_file`, with the file contents given as
its list of lines.  Faithful to the source: each stripped, non-empty,
non-`#` line is parsed by `from_string` WITHOUT forwarding the
`valid_nutrients` argument, and stored under the parsed name. -/
def read_from_file (pf : String → Option Val) (lines : List String)
    (_valid_nutrients : Option (List String) := none) :
    Except PyErr NutrientConstraints :=
  lines.foldlM (fun inst rawLine => do
      let line := pyStrip rawLine.data
      if line = [] ∨ line.head? = some '#' then
        pure inst
      else do
        let nc ← NutrientConstraint.from_string pf (String.mk line)
        pure { inst with nutrients := dictInsert inst.nutrients nc.name nc })
    { allowed := none, nutrients := [] }

end NutrientConstraints

/-! ### `Solver` (solver.py)

The pandas DataFrame is modelled column-oriented: a row count and an
association list `column name → list of cell values` in which every column
has `nrows` entries.  The GLOP backend is abstracted as a function from the
built linear program to a solver status; `solve` takes it as a parameter,
so theorems quantifying over it establish behaviour independent of any
solver call. -/

/-- Column-oriented model of the food `pd.DataFrame`. -/
structure DF where
  nrows : ℕ
  cols : List (String × List Val)
  hlen : ∀ p ∈ cols, p.2.length = nrows

/-- The column names (`df.columns`). -/
def DF.colNames (df : DF) : List String := df.cols.map Prod.fst

/-- `df[name].to_numpy()` for a column known to exist (defaults to `[]`). -/
def DF.colOf (df : DF) (name : String) : List Val := (dictGet df.cols name).getD []

/-- `SolverSettings` dataclass. -/
structure SolverSettings where
  nutrition_constraints : NutrientConstraints
  nutrients_to_optimize : List String
  max_qty_per_food : Option Val := none
  objective_type : String := "min"

/-- The linear program handed to the backend: per-food variables in
`[0, varUB]`, one `(lb, ub, coefficients)` row constraint per nutrient
constraint, objective coefficients per variable, and the direction. -/
structure LPModel where
  numVars : ℕ
  varUB : Val
  constraints : List (Val × Val × List Val)
  objCoeffs : List Val
  minimize : Bool
  deriving DecidableEq

/-- Backend outcome: OPTIMAL with per-variable values and objective value,
INFEASIBLE, or any other status code. -/
inductive LPStatus where
  | optimal (values : List Val) (objective : Val)
  | infeasible
  | other (code : ℕ)
  deriving DecidableEq

/-- The objective coefficient of variable `i`: the equal-weight sum over
`nutrients_to_optimize` of that nutrient's per-gram amount for food `i`. -/
def objCoeff (df : DF) (opt : List String) (i : ℕ) : Val :=
  opt.foldl (fun acc nut => acc.add ((df.colOf nut).getD i (.num 0))) (.num 0)

/-- The model `Solver.solve` builds (variables, constraints, objective).
An upper bound that is `±inf` is passed to the solver as its infinity. -/
def buildModel (df : DF) (s : SolverSettings) (minimize : Bool) : LPModel :=
  { numVars := df.nrows
  , varUB := match s.max_qty_per_food with | some v => v | none => .inf
  , constraints := s.nutrition_constraints.nutrients.map (fun p =>
      (p.2.min_g, if p.2.max_g.isinf then Val.inf else p.2.max_g, df.colOf p.1))
  , objCoeffs := (List.range df.nrows).map (objCoeff df s.nutrients_to_optimize)
  , minimize := minimize }

/-- The result `(chosen_foods, totals)`: the filtered selection is kept as
`(food_code, grams)` pairs, and `totals` as the dictionary in insertion
order. -/
structure Solution where
  selected : List (Val × Val)
  totals : List (String × Val)
  deriving DecidableEq

/-- The filtering tolerance `eps = 1e-9` of `Solver.solve`. -/
def eps : ℚ := mkRat 1 1000000000

/-- The first of the needed columns that is absent (the loop
`for col in keys + optimize: if col not in df.columns: raise`). -/
def firstMissing (needed : List String) (cols : List String) : Option String :=
  needed.find? (fun c => decide (¬ c ∈ cols))

/-- The spellings `Solver.solve` accepts for minimization. -/
def minNames : List String := ["min", "minimize", "minimization"]

/-- The spellings `Solver.solve` accepts for maximization. -/
def maxNames : List String := ["max", "maximize", "maximization"]

/-- `Solver.solve`, parameterised by the abstract LP backend `lp`. -/
def solve (lp : LPModel → LPStatus) (df : DF) (s : SolverSettings) :
    Except PyErr Solution := do
  let ncs := s.nutrition_constraints.nutrients
  if ncs.length = 0 then
    throw (.valueError "No constraints in nutrition_constraints object, nothing to solve")
  if s.nutrients_to_optimize.length = 0 then
    throw (.valueError "No nutrients to were given to optimize for")
  match firstMissing (ncs.map Prod.fst ++ s.nutrients_to_optimize) df.colNames with
  | some col => throw (.valueError (col ++ " is not present in the dataframe"))
  | none =>
  let n := df.nrows
  if n = 0 then
    throw (.valueError "No foods (rows) in dataframe")
  let fidCol ← match dictGet df.cols "food_code" with
    | none => throw (.keyError "food_code")
    | some l => pure l
  let allN := (ncs.map Prod.fst ++ s.nutrients_to_optimize).dedup
  let minimize ←
    if s.objective_type ∈ minNames then pure true
    else if s.objective_type ∈ maxNames then pure false
    else throw (.valueError ("Unrecognized objective_type '" ++ s.objective_type ++ "'"))
  match lp (buildModel df s minimize) with
  | .infeasible =>
    throw (.runtimeError "Problem infeasible: cannot meet nutrition constraints with available foods.")
  | .other code =>
    throw (.runtimeError ("Solver finished with status " ++ toString code))
  | .optimal amounts objVal =>
    let ecol ← match dictGet df.cols "energy_kcal" with
      | none => throw (.keyError "energy_kcal")
      | some l => pure l
    let energyContrib := List.zipWith Val.mul amounts ecol
    let chosen := (List.zip fidCol amounts).filter (fun p => Val.lt (.num eps) p.2)
    let totals : List (String × Val) :=
      ("num_items_chosen", .num ((chosen.filter (fun p => Val.lt (.num 0) p.2)).length : ℚ)) ::
      ("objective_value", objVal) ::
      ("total_energy_kcal", Val.sumList energyContrib) ::
      allN.map (fun nut => ("total_" ++ nut, Val.sumList (List.zipWith Val.mul amounts (df.colOf nut))))
    pure { selected := chosen, totals := totals }

/-! ## Claims -/

/-- C1: `upsert` on a constraint set with no allow-list, called with a valid
name and bounds `0 ≤ 0 ≤ 10`, is claimed to succeed and store the
constraint.  In the code the new `NutrientConstraint` is built without the
`name=` keyword, so its name is the dataclass default `""` and `validate`
rejects it: every `upsert` call (and hence every `from_dict` call on a
non-empty payload) raises `ValueError("name must be non-empty")`. -/
theorem C1_upsert_always_raises :
    NutrientConstraints.upsert { allowed := none, nutrients := [] } "protein_g"
      (.num 0) (some (.num 10)) = .error (.valueError "name must be non-empty")
    ∧ NutrientConstraints.from_dict [("protein_g", (.num 0, some (.num 10)))] none =
      .error (.valueError "name must be non-empty") := by
  decide

/-- C2: `read_from_file` is claimed to fail with a validation error on the
first line whose name is not in the supplied `valid_names`.  The code
accepts the `valid_nutrients` parameter but never forwards it to
`from_string`, so a line whose name is outside the allow-list is accepted:
with `valid_names = ["protein_g"]` the line `"sugar_g,1,2"` is stored
without error (blank and `#` lines are skipped as claimed). -/
theorem C2_valid_names_ignored :
    NutrientConstraints.read_from_file pyFloat ["# comment", "   ", "  sugar_g,1,2"]
      (some ["protein_g"]) =
    .ok { allowed := none,
          nutrients := [("sugar_g", ⟨"sugar_g", .num 1, .num 2⟩)] } := by
  decide

/-- `String.mk name = ""` exactly when the character list is empty. -/
theorem stringMk_eq_empty_iff (name : List Char) : String.mk name = "" ↔ name = [] := by
  constructor
  · intro h
    have := congrArg String.data h
    simpa using this
  · intro h
    subst h
    rfl

/-- If the name is empty, a bound is negative, or `max < min`, then
`validate` (with no allow-list) raises one of its three validation
messages. -/
theorem validate_bad (name : List Char) (mn mx : Val)
    (hbad : name = [] ∨ Val.lt mn (.num 0) = true ∨ Val.lt mx (.num 0) = true ∨
      Val.lt mx mn = true) :
    ∃ m, NutrientConstraint.validate ⟨String.mk name, mn, mx⟩ none =
        .error (.valueError m) ∧
      m ∈ ["name must be non-empty", "min_g and max_g must be non-negative",
           "max_g must be >= min_g"] := by
  by_cases hname : String.mk name = ""
  · refine ⟨"name must be non-empty", ?_, by simp⟩
    simp only [NutrientConstraint.validate]
    simp only [hname, if_true, if_pos rfl]
    rfl
  · by_cases hneg : (Val.lt mn (.num 0) = true ∨ Val.lt mx (.num 0) = true)
    · refine ⟨"min_g and max_g must be non-negative", ?_, by simp⟩
      simp only [NutrientConstraint.validate]
      simp [hname, hneg]
      rfl
    · have hmm : Val.lt mx mn = true := by
        rcases hbad with h | h | h | h
        · exact absurd ((stringMk_eq_empty_iff name).mpr h) hname
        · exact absurd (Or.inl h) hneg
        · exact absurd (Or.inr h) hneg
        · exact h
      refine ⟨"max_g must be >= min_g", ?_, by simp⟩
      simp only [NutrientConstraint.validate]
      simp [hname, hneg, hmm]
      rfl

/-- `from_string` succeeds once the split, the two conversions and the
validation all succeed. -/
theorem from_string_ok (pf : String → Option Val) (input : String)
    (f0 f1 f2 : List Char) (mn mx : Val)
    (hsplit : splitChunks (fun c => c = ',') (removeSpaces input.data) = [f0, f1, f2])
    (hmn : (if f1 = ['-'] then some (Val.num 0) else pf (String.mk f1)) = some mn)
    (hmx : (if f2 = ['-'] then some Val.inf else pf (String.mk f2)) = some mx)
    (hval : NutrientConstraint.validate ⟨String.mk f0, mn, mx⟩ none = .ok ()) :
    NutrientConstraint.from_string pf input none = .ok ⟨String.mk f0, mn, mx⟩ := by
  simp only [NutrientConstraint.from_string, hsplit]
  by_cases h1 : f1 = ['-']
  · rw [if_pos h1] at hmn
    obtain rfl : Val.num 0 = mn := Option.some.inj hmn
    rw [if_pos h1]
    by_cases h2 : f2 = ['-']
    · rw [if_pos h2] at hmx
      obtain rfl : Val.inf = mx := Option.some.inj hmx
      rw [if_pos h2]
      simp [bind, Except.bind, pure, Except.pure, hval]
    · rw [if_neg h2] at hmx
      rw [if_neg h2, hmx]
      simp [bind, Except.bind, pure, Except.pure, hval]
  · rw [if_neg h1] at hmn
    rw [if_neg h1, hmn]
    by_cases h2 : f2 = ['-']
    · rw [if_pos h2] at hmx
      obtain rfl : Val.inf = mx := Option.some.inj hmx
      rw [if_pos h2]
      simp [bind, Except.bind, pure, Except.pure, hval]
    · rw [if_neg h2] at hmx
      rw [if_neg h2, hmx]
      simp [bind, Except.bind, pure, Except.pure, hval]

/-- C3: `from_string` behaviour.  (i) Scenario C: `"sodium_mg,0,-"` parses
to `min_g = 0`, `max_g = +inf`.  (ii) For every float-conversion model,
input and allow-list, a line whose space-stripped form does not split into
exactly 3 comma-separated fields raises the 3-field `ValueError`.
(iii) Whenever the line does split into 3 fields whose numeric fields
convert (`-` meaning `0` / `+inf`), an empty name, a negative bound or
`max < min` raises one of the three validation `ValueError`s.
(iv) For EVERY input splitting into 3 fields with `-` in the min position,
the stored minimum is `0` (whenever the parse succeeds at all), and
(v) for every input with `-` in the max position the stored maximum is
`+inf`. -/
theorem C3_from_string_behaviour :
    (NutrientConstraint.from_string pyFloat "sodium_mg,0,-" none =
      .ok ⟨"sodium_mg", .num 0, .inf⟩)
    ∧ (∀ (pf : String → Option Val) (input : String) (v : Option (List String)),
        (splitChunks (fun c => c = ',') (removeSpaces input.data)).length ≠ 3 →
        NutrientConstraint.from_string pf input v =
          .error (.valueError
            "incorrect input, expected 3 elements in the form of [Name],[min_g],[max_g]"))
    ∧ (∀ (pf : String → Option Val) (input : String) (name smin smax : List Char)
        (mn mx : Val),
        splitChunks (fun c => c = ',') (removeSpaces input.data) = [name, smin, smax] →
        (if smin = ['-'] then some (Val.num 0) else pf (String.mk smin)) = some mn →
        (if smax = ['-'] then some Val.inf else pf (String.mk smax)) = some mx →
        (name = [] ∨ Val.lt mn (.num 0) = true ∨ Val.lt mx (.num 0) = true ∨
          Val.lt mx mn = true) →
        ∃ m, NutrientConstraint.from_string pf input none = .error (.valueError m) ∧
          m ∈ ["name must be non-empty", "min_g and max_g must be non-negative",
               "max_g must be >= min_g"])
    ∧ (∀ (pf : String → Option Val) (input : String) (name smax : List Char) (mx : Val),
        splitChunks (fun c => c = ',') (removeSpaces input.data) = [name, ['-'], smax] →
        (if smax = ['-'] then some Val.inf else pf (String.mk smax)) = some mx →
        NutrientConstraint.validate ⟨String.mk name, .num 0, mx⟩ none = .ok () →
        NutrientConstraint.from_string pf input none =
          .ok ⟨String.mk name, .num 0, mx⟩)
    ∧ (∀ (pf : String → Option Val) (input : String) (name smin : List Char) (mn : Val),
        splitChunks (fun c => c = ',') (removeSpaces input.data) = [name, smin, ['-']] →
        (if smin = ['-'] then some (Val.num 0) else pf (String.mk smin)) = some mn →
        NutrientConstraint.validate ⟨String.mk name, mn, .inf⟩ none = .ok () →
        NutrientConstraint.from_string pf input none =
          .ok ⟨String.mk name, mn, .inf⟩) := by
  refine ⟨by decide, ?_, ?_, ?_, ?_⟩
  · intro pf input v h
    simp only [NutrientConstraint.from_string]
    rcases hs : splitChunks (fun c => c = ',') (removeSpaces input.data) with
      _ | ⟨a, _ | ⟨b, _ | ⟨c, _ | ⟨d, t⟩⟩⟩⟩ <;>
      first
        | rfl
        | (exact absurd (by rw [hs]; rfl) h)
  · intro pf input name smin smax mn mx hsplit hmn hmx hbad
    obtain ⟨m, hv, hmem⟩ := validate_bad name mn mx hbad
    refine ⟨m, ?_, hmem⟩
    simp only [NutrientConstraint.from_string, hsplit]
    by_cases h1 : smin = ['-']
    · rw [if_pos h1] at hmn
      obtain rfl : Val.num 0 = mn := Option.some.inj hmn
      rw [if_pos h1]
      by_cases h2 : smax = ['-']
      · rw [if_pos h2] at hmx
        obtain rfl : Val.inf = mx := Option.some.inj hmx
        rw [if_pos h2]
        simp [bind, Except.bind, pure, Except.pure, hv]
      · rw [if_neg h2] at hmx
        rw [if_neg h2, hmx]
        simp [bind, Except.bind, pure, Except.pure, hv]
    · rw [if_neg h1] at hmn
      rw [if_neg h1, hmn]
      by_cases h2 : smax = ['-']
      · rw [if_pos h2] at hmx
        obtain rfl : Val.inf = mx := Option.some.inj hmx
        rw [if_pos h2]
        simp [bind, Except.bind, pure, Except.pure, hv]
      · rw [if_neg h2] at hmx
        rw [if_neg h2, hmx]
        simp [bind, Except.bind, pure, Except.pure, hv]
  · intro pf input name smax mx hsplit hmx hval
    exact from_string_ok pf input name ['-'] smax (.num 0) mx hsplit rfl hmx hval
  · intro pf input name smin mn hsplit hmn hval
    exact from_string_ok pf input name smin ['-'] mn .inf hsplit hmn rfl hval

/-- Witness for C3: the universally quantified parts instantiated at
concrete inputs: `"a,b"` (2 fields), `"x,-3,5"` (negative min bound),
`"x,-,5"` (dash in the min position reads as `0`) and `"y,3,-"` (dash in
the max position reads as `+inf`). -/
theorem C3_from_string_behaviour_witness :
    (NutrientConstraint.from_string pyFloat "a,b" none =
      .error (.valueError
        "incorrect input, expected 3 elements in the form of [Name],[min_g],[max_g]"))
    ∧ (∃ m, NutrientConstraint.from_string pyFloat "x,-3,5" none =
        .error (.valueError m) ∧
      m ∈ ["name must be non-empty", "min_g and max_g must be non-negative",
           "max_g must be >= min_g"])
    ∧ (NutrientConstraint.from_string pyFloat "x,-,5" none =
        .ok ⟨String.mk ['x'], .num 0, .num 5⟩)
    ∧ (NutrientConstraint.from_string pyFloat "y,3,-" none =
        .ok ⟨String.mk ['y'], .num 3, .inf⟩) :=
  ⟨C3_from_string_behaviour.2.1 pyFloat "a,b" none (by decide),
   C3_from_string_behaviour.2.2.1 pyFloat "x,-3,5" ['x'] ['-', '3'] ['5']
     (.num (-3)) (.num 5) (by decide) (by decide) (by decide) (by decide),
   C3_from_string_behaviour.2.2.2.1 pyFloat "x,-,5" ['x'] ['5'] (.num 5)
     (by decide) (by decide) (by decide),
   C3_from_string_behaviour.2.2.2.2 pyFloat "y,3,-" ['y'] ['3'] (.num 3)
     (by decide) (by decide) (by decide)⟩

/-! ### Characterisation of `solve`'s control paths -/

/-- The direction `solve` selects from `objective_type` (`true` for
minimisation), `none` when the spelling is unrecognised. -/
def dirOf (t : String) : Option Bool :=
  if t ∈ minNames then some true
  else if t ∈ maxNames then some false
  else none

/-- When every precondition passes, the needed columns exist and the
backend reports OPTIMAL, `solve` returns exactly the extracted solution. -/
theorem solve_optimal_eq (lp : LPModel → LPStatus) (df : DF) (s : SolverSettings)
    (fidCol ecol amounts : List Val) (objVal : Val) (dir : Bool)
    (h1 : s.nutrition_constraints.nutrients.length ≠ 0)
    (h2 : s.nutrients_to_optimize.length ≠ 0)
    (h3 : firstMissing (s.nutrition_constraints.nutrients.map Prod.fst ++
      s.nutrients_to_optimize) df.colNames = none)
    (h4 : df.nrows ≠ 0)
    (h5 : dictGet df.cols "food_code" = some fidCol)
    (hdir : dirOf s.objective_type = some dir)
    (h7 : lp (buildModel df s dir) = .optimal amounts objVal)
    (h8 : dictGet df.cols "energy_kcal" = some ecol) :
    solve lp df s = .ok
      { selected := (List.zip fidCol amounts).filter (fun p => Val.lt (.num eps) p.2)
      , totals :=
          ("num_items_chosen", .num
            (((List.zip fidCol amounts).filter (fun p => Val.lt (.num eps) p.2)
              |>.filter (fun p => Val.lt (.num 0) p.2)).length : ℚ)) ::
          ("objective_value", objVal) ::
          ("total_energy_kcal", Val.sumList (List.zipWith Val.mul amounts ecol)) ::
          ((s.nutrition_constraints.nutrients.map Prod.fst ++
            s.nutrients_to_optimize).dedup).map
            (fun nut => ("total_" ++ nut,
              Val.sumList (List.zipWith Val.mul amounts (df.colOf nut)))) } := by
  by_cases hm : s.objective_type ∈ minNames
  · have hd : dir = true := by
      simp [dirOf, hm] at hdir
      exact hdir
    subst hd
    simp [solve, h1, h2, h3, h4, h5, h7, h8, hm, bind, pure, Except.bind, Except.pure, throw, throwThe, MonadExceptOf.throw]
  · by_cases hx : s.objective_type ∈ maxNames
    · have hd : dir = false := by
        simp [dirOf, hm, hx] at hdir
        exact hdir
      subst hd
      simp [solve, h1, h2, h3, h4, h5, h7, h8, hm, hx, bind, pure, Except.bind, Except.pure, throw, throwThe, MonadExceptOf.throw]
    · simp [dirOf, hm, hx] at hdir

/-- Precondition 1: an empty constraint dictionary is rejected first,
whatever else holds and whatever the backend would do. -/
theorem solve_empty_constraints (lp : LPModel → LPStatus) (df : DF) (s : SolverSettings)
    (h : s.nutrition_constraints.nutrients.length = 0) :
    solve lp df s = .error
      (.valueError "No constraints in nutrition_constraints object, nothing to solve") := by
  simp [solve, h, bind, pure, Except.bind, Except.pure, throw, throwThe, MonadExceptOf.throw]

/-- Precondition 2: an empty optimize list is rejected second. -/
theorem solve_empty_objective (lp : LPModel → LPStatus) (df : DF) (s : SolverSettings)
    (h1 : s.nutrition_constraints.nutrients.length ≠ 0)
    (h : s.nutrients_to_optimize.length = 0) :
    solve lp df s = .error
      (.valueError "No nutrients to were given to optimize for") := by
  simp [solve, h1, h, bind, pure, Except.bind, Except.pure, throw, throwThe, MonadExceptOf.throw]

/-- Precondition 3: the first referenced name that is not a column is
rejected third, before any backend call. -/
theorem solve_missing_column (lp : LPModel → LPStatus) (df : DF) (s : SolverSettings)
    (col : String)
    (h1 : s.nutrition_constraints.nutrients.length ≠ 0)
    (h2 : s.nutrients_to_optimize.length ≠ 0)
    (h : firstMissing (s.nutrition_constraints.nutrients.map Prod.fst ++
      s.nutrients_to_optimize) df.colNames = some col) :
    solve lp df s = .error (.valueError (col ++ " is not present in the dataframe")) := by
  simp [solve, h1, h2, h, bind, pure, Except.bind, Except.pure, throw, throwThe, MonadExceptOf.throw]

/-- Precondition 4: a table with zero rows is rejected fourth. -/
theorem solve_no_rows (lp : LPModel → LPStatus) (df : DF) (s : SolverSettings)
    (h1 : s.nutrition_constraints.nutrients.length ≠ 0)
    (h2 : s.nutrients_to_optimize.length ≠ 0)
    (h3 : firstMissing (s.nutrition_constraints.nutrients.map Prod.fst ++
      s.nutrients_to_optimize) df.colNames = none)
    (h : df.nrows = 0) :
    solve lp df s = .error (.valueError "No foods (rows) in dataframe") := by
  simp [solve, h1, h2, h3, h, bind, pure, Except.bind, Except.pure, throw, throwThe, MonadExceptOf.throw]

/-- Model building dereferences the `food_code` column; its absence raises
`KeyError` before any backend call. -/
theorem solve_no_food_code (lp : LPModel → LPStatus) (df : DF) (s : SolverSettings)
    (h1 : s.nutrition_constraints.nutrients.length ≠ 0)
    (h2 : s.nutrients_to_optimize.length ≠ 0)
    (h3 : firstMissing (s.nutrition_constraints.nutrients.map Prod.fst ++
      s.nutrients_to_optimize) df.colNames = none)
    (h4 : df.nrows ≠ 0)
    (h : dictGet df.cols "food_code" = none) :
    solve lp df s = .error (.keyError "food_code") := by
  simp [solve, h1, h2, h3, h4, h, bind, pure, Except.bind, Except.pure, throw, throwThe, MonadExceptOf.throw]

/-- An unrecognised `objective_type` raises its `ValueError` before the
backend call. -/
theorem solve_bad_objective_type (lp : LPModel → LPStatus) (df : DF) (s : SolverSettings)
    (fidCol : List Val)
    (h1 : s.nutrition_constraints.nutrients.length ≠ 0)
    (h2 : s.nutrients_to_optimize.length ≠ 0)
    (h3 : firstMissing (s.nutrition_constraints.nutrients.map Prod.fst ++
      s.nutrients_to_optimize) df.colNames = none)
    (h4 : df.nrows ≠ 0)
    (h5 : dictGet df.cols "food_code" = some fidCol)
    (h : dirOf s.objective_type = none) :
    solve lp df s = .error
      (.valueError ("Unrecognized objective_type '" ++ s.objective_type ++ "'")) := by
  have hm : ¬ s.objective_type ∈ minNames := by
    intro hc
    simp [dirOf, hc] at h
  have hx : ¬ s.objective_type ∈ maxNames := by
    intro hc
    simp [dirOf, hm, hc] at h
  simp [solve, h1, h2, h3, h4, h5, hm, hx, bind, pure, Except.bind, Except.pure, throw, throwThe, MonadExceptOf.throw]

/-- An INFEASIBLE backend status raises the infeasibility `RuntimeError`. -/
theorem solve_infeasible (lp : LPModel → LPStatus) (df : DF) (s : SolverSettings)
    (fidCol : List Val) (dir : Bool)
    (h1 : s.nutrition_constraints.nutrients.length ≠ 0)
    (h2 : s.nutrients_to_optimize.length ≠ 0)
    (h3 : firstMissing (s.nutrition_constraints.nutrients.map Prod.fst ++
      s.nutrients_to_optimize) df.colNames = none)
    (h4 : df.nrows ≠ 0)
    (h5 : dictGet df.cols "food_code" = some fidCol)
    (hdir : dirOf s.objective_type = some dir)
    (h7 : lp (buildModel df s dir) = .infeasible) :
    solve lp df s = .error (.runtimeError
      "Problem infeasible: cannot meet nutrition constraints with available foods.") := by
  by_cases hm : s.objective_type ∈ minNames
  · have hd : dir = true := by
      simp [dirOf, hm] at hdir
      exact hdir
    subst hd
    simp [solve, h1, h2, h3, h4, h5, h7, hm, bind, pure, Except.bind, Except.pure, throw, throwThe, MonadExceptOf.throw]
  · by_cases hx : s.objective_type ∈ maxNames
    · have hd : dir = false := by
        simp [dirOf, hm, hx] at hdir
        exact hdir
      subst hd
      simp [solve, h1, h2, h3, h4, h5, h7, hm, hx, bind, pure, Except.bind, Except.pure, throw, throwThe, MonadExceptOf.throw]
    · simp [dirOf, hm, hx] at hdir

/-- Any other non-OPTIMAL backend status raises the status `RuntimeError`. -/
theorem solve_other_status (lp : LPModel → LPStatus) (df : DF) (s : SolverSettings)
    (fidCol : List Val) (dir : Bool) (code : ℕ)
    (h1 : s.nutrition_constraints.nutrients.length ≠ 0)
    (h2 : s.nutrients_to_optimize.length ≠ 0)
    (h3 : firstMissing (s.nutrition_constraints.nutrients.map Prod.fst ++
      s.nutrients_to_optimize) df.colNames = none)
    (h4 : df.nrows ≠ 0)
    (h5 : dictGet df.cols "food_code" = some fidCol)
    (hdir : dirOf s.objective_type = some dir)
    (h7 : lp (buildModel df s dir) = .other code) :
    solve lp df s = .error (.runtimeError
      ("Solver finished with status " ++ toString code)) := by
  by_cases hm : s.objective_type ∈ minNames
  · have hd : dir = true := by
      simp [dirOf, hm] at hdir
      exact hdir
    subst hd
    simp [solve, h1, h2, h3, h4, h5, h7, hm, bind, pure, Except.bind, Except.pure, throw, throwThe, MonadExceptOf.throw]
  · by_cases hx : s.objective_type ∈ maxNames
    · have hd : dir = false := by
        simp [dirOf, hm, hx] at hdir
        exact hdir
      subst hd
      simp [solve, h1, h2, h3, h4, h5, h7, hm, hx, bind, pure, Except.bind, Except.pure, throw, throwThe, MonadExceptOf.throw]
    · simp [dirOf, hm, hx] at hdir

/-- Extraction dereferences the `energy_kcal` column unconditionally; its
absence turns an OPTIMAL status into a `KeyError`. -/
theorem solve_no_energy (lp : LPModel → LPStatus) (df : DF) (s : SolverSettings)
    (fidCol amounts : List Val) (objVal : Val) (dir : Bool)
    (h1 : s.nutrition_constraints.nutrients.length ≠ 0)
    (h2 : s.nutrients_to_optimize.length ≠ 0)
    (h3 : firstMissing (s.nutrition_constraints.nutrients.map Prod.fst ++
      s.nutrients_to_optimize) df.colNames = none)
    (h4 : df.nrows ≠ 0)
    (h5 : dictGet df.cols "food_code" = some fidCol)
    (hdir : dirOf s.objective_type = some dir)
    (h7 : lp (buildModel df s dir) = .optimal amounts objVal)
    (h8 : dictGet df.cols "energy_kcal" = none) :
    solve lp df s = .error (.keyError "energy_kcal") := by
  by_cases hm : s.objective_type ∈ minNames
  · have hd : dir = true := by
      simp [dirOf, hm] at hdir
      exact hdir
    subst hd
    simp [solve, h1, h2, h3, h4, h5, h7, h8, hm, bind, pure, Except.bind, Except.pure, throw, throwThe, MonadExceptOf.throw]
  · by_cases hx : s.objective_type ∈ maxNames
    · have hd : dir = false := by
        simp [dirOf, hm, hx] at hdir
        exact hdir
      subst hd
      simp [solve, h1, h2, h3, h4, h5, h7, h8, hm, hx, bind, pure, Except.bind, Except.pure, throw, throwThe, MonadExceptOf.throw]
    · simp [dirOf, hm, hx] at hdir

/-! ### Helper lemmas -/

/-- `firstMissing` finds nothing exactly when every needed name is a column. -/
theorem firstMissing_eq_none_iff (needed cols : List String) :
    firstMissing needed cols = none ↔ ∀ c ∈ needed, c ∈ cols := by
  simp [firstMissing, List.find?_eq_none]

/-- If some needed name is missing, `firstMissing` returns a missing one. -/
theorem firstMissing_of_missing (needed cols : List String)
    (h : ∃ c ∈ needed, ¬ c ∈ cols) :
    ∃ c, firstMissing needed cols = some c ∧ c ∈ needed ∧ ¬ c ∈ cols := by
  cases hfm : firstMissing needed cols with
  | none =>
    obtain ⟨c, hc, hnc⟩ := h
    exact absurd ((firstMissing_eq_none_iff needed cols).mp hfm c hc) hnc
  | some c =>
    refine ⟨c, rfl, List.mem_of_find?_eq_some hfm, ?_⟩
    have := List.find?_some hfm
    simpa using this

/-- A successful `dictGet` means the pair is in the list. -/
theorem dictGet_mem {α : Type} [DecidableEq α] {β : Type}
    (l : List (α × β)) (k : α) (v : β) (h : dictGet l k = some v) : (k, v) ∈ l := by
  induction l with
  | nil => simp [dictGet] at h
  | cons p rest ih =>
    obtain ⟨a, b⟩ := p
    simp only [dictGet] at h
    by_cases hk : a = k
    · subst hk
      rw [if_pos rfl] at h
      obtain rfl := Option.some.inj h
      exact List.mem_cons_self _ _
    · rw [if_neg hk] at h
      exact List.mem_cons_of_mem _ (ih h)

/-- A column returned by `dictGet` has `nrows` entries. -/
theorem dictGet_col_length (df : DF) (name : String) (v : List Val)
    (h : dictGet df.cols name = some v) : v.length = df.nrows :=
  df.hlen (name, v) (dictGet_mem df.cols name v h)

/-- `colOf` agrees with a successful `dictGet`. -/
theorem colOf_eq_of_dictGet (df : DF) (name : String) (v : List Val)
    (h : dictGet df.cols name = some v) : df.colOf name = v := by
  simp [DF.colOf, h]

/-- Anything strictly above the positive tolerance is strictly above zero. -/
theorem val_lt_eps_lt_zero (a : Val) (h : Val.lt (.num eps) a = true) :
    Val.lt (.num 0) a = true := by
  cases a with
  | num q =>
    simp [Val.lt] at h ⊢
    calc (0 : ℚ) < eps := by norm_num [eps]
    _ < q := h
  | inf => rfl
  | negInf => simp [Val.lt] at h
  | nan => simp [Val.lt] at h

/-- Filtering a zip on its second component keeps as many elements as
filtering the second list, when lengths agree. -/
theorem zip_filter_snd_length {q : Val → Bool} :
    ∀ (l1 l2 : List Val), l1.length = l2.length →
      ((l1.zip l2).filter (fun p => q p.2)).length = (l2.filter q).length := by
  intro l1
  induction l1 with
  | nil =>
    intro l2 h
    cases l2 with
    | nil => rfl
    | cons b t => simp at h
  | cons a t1 ih =>
    intro l2 h
    cases l2 with
    | nil => simp at h
    | cons b t2 =>
      have h2 : t1.length = t2.length := by simpa using h
      simp only [List.zip_cons_cons, List.filter_cons]
      cases hq : q b <;> simp [hq] <;> exact ih t2 h2

/-- `(s ++ t).data = s.data ++ t.data`. -/
theorem str_append_data (s t : String) : (s ++ t).data = s.data ++ t.data := by
  cases s
  cases t
  rfl

/-- Strings with equal character lists are equal. -/
theorem str_data_inj (s t : String) (h : s.data = t.data) : s = t := by
  cases s
  cases t
  exact congrArg String.mk h

/-- Appending on the left of a string is injective. -/
theorem str_append_left_inj (s a b : String) (h : s ++ a = s ++ b) : a = b := by
  have hd := congrArg String.data h
  rw [str_append_data, str_append_data] at hd
  exact str_data_inj a b (List.append_cancel_left hd)

/-- `"total_" ++ nut` is never the `num_items_chosen` key. -/
theorem total_key_ne_num_items (nut : String) :
    "total_" ++ nut ≠ "num_items_chosen" := by
  intro h
  have hd := congrArg String.data h
  rw [str_append_data] at hd
  have h1 := congrArg List.head? hd
  simp at h1

/-- `"total_" ++ nut` is never the `objective_value` key. -/
theorem total_key_ne_objective (nut : String) :
    "total_" ++ nut ≠ "objective_value" := by
  intro h
  have hd := congrArg String.data h
  rw [str_append_data] at hd
  have h1 := congrArg List.head? hd
  simp at h1

/-- Looking up `"total_" ++ nut` in the per-nutrient totals built from any
name list containing `nut`. -/
theorem dictGet_total_map (f : String → Val) :
    ∀ (l : List String) (nut : String), nut ∈ l →
      dictGet (l.map fun n => ("total_" ++ n, f n)) ("total_" ++ nut) = some (f nut) := by
  intro l
  induction l with
  | nil => simp
  | cons n t ih =>
    intro nut hmem
    simp only [List.map, dictGet]
    by_cases he : ("total_" ++ n) = ("total_" ++ nut)
    · have : n = nut := str_append_left_inj "total_" n nut he
      subst this
      rw [if_pos rfl]
    · rw [if_neg he]
      have : nut ∈ t := by
        rcases List.mem_cons.mp hmem with h | h
        · exact absurd (by rw [h]) he
        · exact h
      exact ih nut this

/-! ### Concrete fixtures used by the witnesses -/

/-- Scenario-A-style food table: two foods with per-gram protein and
energy (`A: 0.20 g protein, 2.0 kcal`; `B: 0.10 g protein, 1.5 kcal`). -/
def dfA : DF :=
  { nrows := 2
  , cols := [("food_code", [.num 1, .num 2]),
             ("energy_kcal", [.num 2, .num (mkRat 3 2)]),
             ("protein_g", [.num (mkRat 1 5), .num (mkRat 1 10)])]
  , hlen := by decide }

/-- Minimise energy subject to at least 50 g of protein. -/
def setA : SolverSettings :=
  { nutrition_constraints :=
      { allowed := none
      , nutrients := [("protein_g", ⟨"protein_g", .num 50, .inf⟩)] }
  , nutrients_to_optimize := ["energy_kcal"]
  , max_qty_per_food := none
  , objective_type := "min" }

/-- A backend stub reporting OPTIMAL with 250 g of food 1 and none of
food 2, objective 500 (scenario A's optimum). -/
def lpA : LPModel → LPStatus := fun _ => .optimal [.num 250, .num 0] (.num 500)

/-- C6: the four `solve` preconditions are checked in order, each failing
fast with its specific `ValueError`; an earlier failure wins whatever holds
later, and all four fire before the backend is invoked (the statements
hold for EVERY backend `lp`). -/
theorem C6_precondition_order (lp : LPModel → LPStatus) (df : DF) (s : SolverSettings) :
    (s.nutrition_constraints.nutrients = [] →
      solve lp df s = .error
        (.valueError "No constraints in nutrition_constraints object, nothing to solve"))
    ∧ (s.nutrition_constraints.nutrients ≠ [] → s.nutrients_to_optimize = [] →
      solve lp df s = .error
        (.valueError "No nutrients to were given to optimize for"))
    ∧ (s.nutrition_constraints.nutrients ≠ [] → s.nutrients_to_optimize ≠ [] →
      (∃ c ∈ s.nutrition_constraints.nutrients.map Prod.fst ++ s.nutrients_to_optimize,
        ¬ c ∈ df.colNames) →
      ∃ c, (c ∈ s.nutrition_constraints.nutrients.map Prod.fst ++ s.nutrients_to_optimize)
        ∧ (¬ c ∈ df.colNames)
        ∧ solve lp df s = .error (.valueError (c ++ " is not present in the dataframe")))
    ∧ (s.nutrition_constraints.nutrients ≠ [] → s.nutrients_to_optimize ≠ [] →
      (∀ c ∈ s.nutrition_constraints.nutrients.map Prod.fst ++ s.nutrients_to_optimize,
        c ∈ df.colNames) →
      df.nrows = 0 →
      solve lp df s = .error (.valueError "No foods (rows) in dataframe")) := by
  refine ⟨?_, ?_, ?_, ?_⟩
  · intro h
    exact solve_empty_constraints lp df s (by simp [h])
  · intro h1 h2
    refine solve_empty_objective lp df s ?_ (by simp [h2])
    intro hc
    exact h1 (List.length_eq_zero.mp hc)
  · intro h1 h2 hex
    obtain ⟨c, hfm, hc, hnc⟩ := firstMissing_of_missing _ _ hex
    refine ⟨c, hc, hnc, solve_missing_column lp df s c ?_ ?_ hfm⟩
    · intro hz
      exact h1 (List.length_eq_zero.mp hz)
    · intro hz
      exact h2 (List.length_eq_zero.mp hz)
  · intro h1 h2 hall h0
    refine solve_no_rows lp df s ?_ ?_ ((firstMissing_eq_none_iff _ _).mpr hall) h0
    · intro hz
      exact h1 (List.length_eq_zero.mp hz)
    · intro hz
      exact h2 (List.length_eq_zero.mp hz)

/-- `setA` with no constraint entries. -/
def setNoConstraints : SolverSettings :=
  { nutrition_constraints := { allowed := none, nutrients := [] }
  , nutrients_to_optimize := ["energy_kcal"]
  , max_qty_per_food := none
  , objective_type := "min" }

/-- `setA` with an empty optimize list. -/
def setNoObjective : SolverSettings :=
  { nutrition_constraints := setA.nutrition_constraints
  , nutrients_to_optimize := []
  , max_qty_per_food := none
  , objective_type := "min" }

/-- A constraint on `fiber_g`, which `dfA` does not have (scenario D). -/
def setFiber : SolverSettings :=
  { nutrition_constraints :=
      { allowed := none
      , nutrients := [("fiber_g", ⟨"fiber_g", .num 10, .inf⟩)] }
  , nutrients_to_optimize := ["energy_kcal"]
  , max_qty_per_food := none
  , objective_type := "min" }

/-- A table with the right columns but zero rows. -/
def dfEmpty : DF :=
  { nrows := 0
  , cols := [("food_code", []), ("energy_kcal", []), ("protein_g", [])]
  , hlen := by decide }

/-- Witness for C6: each precondition exercised concretely, in order:
empty constraint set; empty optimize list; constraint on `fiber_g` absent
from the table (spec scenario D); a zero-row table. -/
theorem C6_precondition_order_witness :
    (solve lpA dfA setNoConstraints = .error
      (.valueError "No constraints in nutrition_constraints object, nothing to solve"))
    ∧ (solve lpA dfA setNoObjective = .error
      (.valueError "No nutrients to were given to optimize for"))
    ∧ (∃ c, (c ∈ ["fiber_g", "energy_kcal"]) ∧ (¬ c ∈ dfA.colNames)
        ∧ solve lpA dfA setFiber =
          .error (.valueError (c ++ " is not present in the dataframe")))
    ∧ (solve lpA dfEmpty setA = .error
      (.valueError "No foods (rows) in dataframe")) :=
  ⟨(C6_precondition_order lpA dfA setNoConstraints).1 rfl,
   (C6_precondition_order lpA dfA setNoObjective).2.1 (by decide) rfl,
   (C6_precondition_order lpA dfA setFiber).2.2.1 (by decide) (by decide)
     ⟨"fiber_g", by decide, by decide⟩,
   (C6_precondition_order lpA dfEmpty setA).2.2.2 (by decide) (by decide) (by decide) rfl⟩

/-- On `nan`-free data the `skipna` sum and the plain IEEE sum agree, so
the amended totals statement implies the original one there. -/
theorem sumList_eq_sumAll (l : List Val) (h : ∀ v ∈ l, v ≠ .nan) :
    Val.sumList l = Val.sumAll l := by
  have key : ∀ (t : List Val) (acc : Val), (∀ v ∈ t, v ≠ .nan) →
      t.foldl (fun acc v => if v = .nan then acc else Val.add acc v) acc =
        t.foldl Val.add acc := by
    intro t
    induction t with
    | nil =>
      intro acc _
      rfl
    | cons x r ih =>
      intro acc hx
      simp only [List.foldl]
      rw [if_neg (hx x (List.mem_cons_self x r))]
      exact ih _ (fun v hv => hx v (List.mem_cons_of_mem x hv))
  exact key l (.num 0) h

/-- `dfA` with a `nan` protein value for food 1 (reachable: `solve`
performs no finiteness validation). -/
def dfNan : DF :=
  { nrows := 2
  , cols := [("food_code", [.num 1, .num 2]),
             ("energy_kcal", [.num 2, .num (mkRat 3 2)]),
             ("protein_g", [.nan, .num (mkRat 1 10)])]
  , hlen := by decide }

/-- Counterexample for C4 as stated: on a table with a `nan` protein cell
the program stores `totals["total_protein_g"] = 0.0` — `pandas.Series.sum`
(default `skipna=True`) drops the `nan` contribution of food 1 — while the
sum over ALL food rows of grams times per-gram amount is `nan`, which no
value is within `1e-6` of. -/
theorem C4_totals_nan_counterexample :
    solve lpA dfNan setA = .ok
      { selected := [(.num 1, .num 250)]
      , totals := [("num_items_chosen", .num 1), ("objective_value", .num 500),
                   ("total_energy_kcal", .num 500), ("total_protein_g", .num 0),
                   ("total_energy_kcal", .num 500)] }
    ∧ Val.sumAll (List.zipWith Val.mul [Val.num 250, Val.num 0]
        (dfNan.colOf "protein_g")) = .nan
    ∧ (Val.num 0 ≠ Val.nan) := by
  decide

/-- C4 (amended): totals consistency modulo `skipna`.  For every solution
`solve` returns with the backend reporting per-variable grams `amounts`
and objective `objVal`: `totals["total_<nutrient>"]` for each constrained
or optimized nutrient is the `nan`-skipping sum (pandas `Series.sum`,
default `skipna=True`) over ALL food rows of grams times the per-gram
amount — which coincides with the plain sum, exactly and hence within any
tolerance, whenever no contribution is `nan`; `num_items_chosen` counts
the foods with grams above the `1e-9` tolerance; `objective_value` is the
backend's reported objective. -/
theorem C4_totals_consistency (lp : LPModel → LPStatus) (df : DF) (s : SolverSettings)
    (fidCol ecol amounts : List Val) (objVal : Val) (dir : Bool) (sol : Solution)
    (h1 : s.nutrition_constraints.nutrients.length ≠ 0)
    (h2 : s.nutrients_to_optimize.length ≠ 0)
    (h3 : firstMissing (s.nutrition_constraints.nutrients.map Prod.fst ++
      s.nutrients_to_optimize) df.colNames = none)
    (h4 : df.nrows ≠ 0)
    (h5 : dictGet df.cols "food_code" = some fidCol)
    (hdir : dirOf s.objective_type = some dir)
    (h7 : lp (buildModel df s dir) = .optimal amounts objVal)
    (h8 : dictGet df.cols "energy_kcal" = some ecol)
    (hlenA : amounts.length = df.nrows)
    (hsol : solve lp df s = .ok sol) :
    (∀ nut, nut ∈ s.nutrition_constraints.nutrients.map Prod.fst ++
        s.nutrients_to_optimize →
      dictGet sol.totals ("total_" ++ nut) =
        some (Val.sumList (List.zipWith Val.mul amounts (df.colOf nut))))
    ∧ dictGet sol.totals "num_items_chosen" =
        some (.num ((amounts.filter (fun a => Val.lt (.num eps) a)).length : ℚ))
    ∧ dictGet sol.totals "objective_value" = some objVal := by
  rw [solve_optimal_eq lp df s fidCol ecol amounts objVal dir
    h1 h2 h3 h4 h5 hdir h7 h8] at hsol
  obtain rfl := Except.ok.inj hsol
  refine ⟨?_, ?_, ?_⟩
  · intro nut hmem
    show dictGet _ ("total_" ++ nut) = _
    rw [dictGet, if_neg (Ne.symm (total_key_ne_num_items nut)),
        dictGet, if_neg (Ne.symm (total_key_ne_objective nut))]
    by_cases hnut : nut = "energy_kcal"
    · subst hnut
      rw [dictGet, if_pos (by decide), colOf_eq_of_dictGet df _ _ h8]
    · rw [dictGet, if_neg ?_]
      · exact dictGet_total_map _ _ nut (List.mem_dedup.mpr hmem)
      · intro he
        have h0 : ("total_" ++ "energy_kcal" : String) = "total_" ++ nut := by
          have : ("total_energy_kcal" : String) = "total_" ++ "energy_kcal" := by decide
          rw [← this]
          exact he
        exact hnut (str_append_left_inj "total_" _ _ h0).symm
  · have hfidlen : fidCol.length = amounts.length := by
      rw [dictGet_col_length df _ _ h5, hlenA]
    have hsub : ((List.zip fidCol amounts).filter
        (fun p => Val.lt (.num eps) p.2)).filter (fun p => Val.lt (.num 0) p.2) =
        (List.zip fidCol amounts).filter (fun p => Val.lt (.num eps) p.2) := by
      apply List.filter_eq_self.mpr
      intro p hp
      exact val_lt_eps_lt_zero p.2 ((List.mem_filter.mp hp).2)
    have hcnt := zip_filter_snd_length fidCol amounts hfidlen
      (q := fun a => Val.lt (.num eps) a)
    show dictGet _ "num_items_chosen" = _
    rw [dictGet, if_pos rfl, hsub, hcnt]
  · show dictGet _ "objective_value" = _
    rw [dictGet, if_neg (by decide), dictGet, if_pos rfl]

/-- The `i`-th pair of a zip is a member of the zip. -/
theorem zip_get_mem :
    ∀ (l1 l2 : List Val) (i : ℕ) (h1 : i < l1.length) (h2 : i < l2.length),
      (l1.get ⟨i, h1⟩, l2.get ⟨i, h2⟩) ∈ l1.zip l2 := by
  intro l1
  induction l1 with
  | nil =>
    intro l2 i h1
    simp at h1
  | cons a t1 ih =>
    intro l2 i h1 h2
    cases l2 with
    | nil => simp at h2
    | cons b t2 =>
      cases i with
      | zero => exact List.mem_cons_self _ _
      | succ n =>
        exact List.mem_cons_of_mem _
          (ih t2 n (by simpa using h1) (by simpa using h2))

/-- The solution `solve` returns for scenario A under the stub backend. -/
def solA : Solution :=
  { selected := [(.num 1, .num 250)]
  , totals := [("num_items_chosen", .num 1), ("objective_value", .num 500),
               ("total_energy_kcal", .num 500), ("total_protein_g", .num 50),
               ("total_energy_kcal", .num 500)] }

/-- Witness for C4: scenario A concretely.  250 g of food 1 at 0.2 g/g
protein and 2 kcal/g gives `total_protein_g = 50`,
`total_energy_kcal = 500`, one chosen item and objective 500. -/
theorem C4_totals_consistency_witness :
    (∀ nut, nut ∈ setA.nutrition_constraints.nutrients.map Prod.fst ++
        setA.nutrients_to_optimize →
      dictGet solA.totals ("total_" ++ nut) =
        some (Val.sumList (List.zipWith Val.mul [Val.num 250, Val.num 0] (dfA.colOf nut))))
    ∧ dictGet solA.totals "num_items_chosen" =
        some (.num ((([Val.num 250, Val.num 0].filter
          (fun a => Val.lt (.num eps) a)).length : ℕ) : ℚ))
    ∧ dictGet solA.totals "objective_value" = some (.num 500) :=
  C4_totals_consistency lpA dfA setA [.num 1, .num 2] [.num 2, .num (mkRat 3 2)]
    [.num 250, .num 0] (.num 500) true solA
    (by decide) (by decide) (by decide) (by decide) (by decide) (by decide)
    (by decide) (by decide) (by decide) (by decide)

/-- C5: zero-tolerance filtering.  Every entry of `Solution.selected` has
grams strictly above `1e-9`, and every food row whose solved grams exceed
`1e-9` appears in `selected` (with its food code). -/
theorem C5_zero_tolerance_filtering (lp : LPModel → LPStatus) (df : DF)
    (s : SolverSettings) (fidCol ecol amounts : List Val) (objVal : Val)
    (dir : Bool) (sol : Solution)
    (h1 : s.nutrition_constraints.nutrients.length ≠ 0)
    (h2 : s.nutrients_to_optimize.length ≠ 0)
    (h3 : firstMissing (s.nutrition_constraints.nutrients.map Prod.fst ++
      s.nutrients_to_optimize) df.colNames = none)
    (h4 : df.nrows ≠ 0)
    (h5 : dictGet df.cols "food_code" = some fidCol)
    (hdir : dirOf s.objective_type = some dir)
    (h7 : lp (buildModel df s dir) = .optimal amounts objVal)
    (h8 : dictGet df.cols "energy_kcal" = some ecol)
    (hsol : solve lp df s = .ok sol) :
    (∀ p ∈ sol.selected, Val.lt (.num eps) p.2 = true)
    ∧ (∀ (i : ℕ) (hi : i < fidCol.length) (hj : i < amounts.length),
        Val.lt (.num eps) (amounts.get ⟨i, hj⟩) = true →
        (fidCol.get ⟨i, hi⟩, amounts.get ⟨i, hj⟩) ∈ sol.selected) := by
  rw [solve_optimal_eq lp df s fidCol ecol amounts objVal dir
    h1 h2 h3 h4 h5 hdir h7 h8] at hsol
  obtain rfl := Except.ok.inj hsol
  constructor
  · intro p hp
    exact (List.mem_filter.mp hp).2
  · intro i hi hj hlt
    apply List.mem_filter.mpr
    exact ⟨zip_get_mem fidCol amounts i hi hj, hlt⟩

/-- Witness for C5: scenario A concretely; food 1 (250 g) is selected,
food 2 (0 g) is not. -/
theorem C5_zero_tolerance_filtering_witness :
    (∀ p ∈ solA.selected, Val.lt (.num eps) p.2 = true)
    ∧ (∀ (i : ℕ) (hi : i < ([Val.num 1, Val.num 2] : List Val).length)
        (hj : i < ([Val.num 250, Val.num 0] : List Val).length),
        Val.lt (.num eps) (([Val.num 250, Val.num 0] : List Val).get ⟨i, hj⟩) = true →
        (([Val.num 1, Val.num 2] : List Val).get ⟨i, hi⟩,
          ([Val.num 250, Val.num 0] : List Val).get ⟨i, hj⟩) ∈ solA.selected) :=
  C5_zero_tolerance_filtering lpA dfA setA [.num 1, .num 2] [.num 2, .num (mkRat 3 2)]
    [.num 250, .num 0] (.num 500) true solA
    (by decide) (by decide) (by decide) (by decide) (by decide) (by decide)
    (by decide) (by decide) (by decide)

/-- `dfA` with a non-finite (infinite) protein value for food 1. -/
def dfInf : DF :=
  { nrows := 2
  , cols := [("food_code", [.num 1, .num 2]),
             ("energy_kcal", [.num 2, .num (mkRat 3 2)]),
             ("protein_g", [.inf, .num (mkRat 1 10)])]
  , hlen := by decide }

/-- Counterexample for C7: `dfInf` holds an infinite value in the
constrained column `protein_g`, yet `solve` raises no `ValueError`: with
an OPTIMAL backend it returns a `Solution`, the infinity propagating into
`totals["total_protein_g"]`. -/
theorem C7_nonfinite_counterexample :
    (Val.inf ∈ dfInf.colOf "protein_g")
    ∧ solve lpA dfInf setA = .ok
      { selected := [(.num 1, .num 250)]
      , totals := [("num_items_chosen", .num 1), ("objective_value", .num 500),
                   ("total_energy_kcal", .num 500), ("total_protein_g", .inf),
                   ("total_energy_kcal", .num 500)] } := by
  decide

/-- C7 (amended): `solve` performs no finiteness validation.  Whenever the
preconditions pass, the `food_code` / `energy_kcal` columns exist and the
objective direction is recognised, then even if a referenced column holds
a non-finite value the call never raises a `ValueError`: it hands the
values to the backend and either returns a `Solution` (OPTIMAL) or raises
the backend-status `RuntimeError`. -/
theorem C7_nonfinite_passthrough (lp : LPModel → LPStatus) (df : DF)
    (s : SolverSettings) (fidCol ecol : List Val) (dir : Bool)
    (h1 : s.nutrition_constraints.nutrients.length ≠ 0)
    (h2 : s.nutrients_to_optimize.length ≠ 0)
    (h3 : firstMissing (s.nutrition_constraints.nutrients.map Prod.fst ++
      s.nutrients_to_optimize) df.colNames = none)
    (h4 : df.nrows ≠ 0)
    (h5 : dictGet df.cols "food_code" = some fidCol)
    (hdir : dirOf s.objective_type = some dir)
    (h8 : dictGet df.cols "energy_kcal" = some ecol)
    (hnf : ∃ nut ∈ s.nutrition_constraints.nutrients.map Prod.fst ++
      s.nutrients_to_optimize, ∃ v ∈ df.colOf nut, Val.isinf v = true ∨ v = .nan) :
    (∃ sol, solve lp df s = .ok sol)
    ∨ (∃ m, solve lp df s = .error (.runtimeError m)) := by
  cases hlp : lp (buildModel df s dir) with
  | optimal amounts objVal =>
    exact Or.inl ⟨_, solve_optimal_eq lp df s fidCol ecol amounts objVal dir
      h1 h2 h3 h4 h5 hdir hlp h8⟩
  | infeasible =>
    exact Or.inr ⟨_, solve_infeasible lp df s fidCol dir h1 h2 h3 h4 h5 hdir hlp⟩
  | other code =>
    exact Or.inr ⟨_, solve_other_status lp df s fidCol dir code h1 h2 h3 h4 h5 hdir hlp⟩

/-- Witness for C7's amended theorem at the concrete non-finite table. -/
theorem C7_nonfinite_passthrough_witness :
    (∃ sol, solve lpA dfInf setA = .ok sol)
    ∨ (∃ m, solve lpA dfInf setA = .error (.runtimeError m)) :=
  C7_nonfinite_passthrough lpA dfInf setA [.num 1, .num 2] [.num 2, .num (mkRat 3 2)]
    true (by decide) (by decide) (by decide) (by decide) (by decide) (by decide)
    (by decide) ⟨"protein_g", by decide, Val.inf, by decide, by decide⟩

/-- A table with `food_code` and `protein_g` but no energy column. -/
def dfNoEnergy : DF :=
  { nrows := 1
  , cols := [("food_code", [.num 7]), ("protein_g", [.num (mkRat 1 5)])]
  , hlen := by decide }

/-- Constrain and optimize protein only (so the four preconditions can
pass without an energy column). -/
def setP : SolverSettings :=
  { nutrition_constraints :=
      { allowed := none, nutrients := [("protein_g", ⟨"protein_g", .num 50, .inf⟩)] }
  , nutrients_to_optimize := ["protein_g"]
  , max_qty_per_food := none
  , objective_type := "min" }

/-- OPTIMAL stub for the one-food protein problem. -/
def lpP : LPModel → LPStatus := fun _ => .optimal [.num 250] (.num 50)

/-- Counterexample for C8: every documented precondition passes on
`dfNoEnergy`/`setP`, but with no energy column `solve` raises `KeyError`
instead of returning a `Solution` without the energy metric. -/
theorem C8_missing_energy_counterexample :
    solve lpP dfNoEnergy setP = .error (.keyError "energy_kcal") := by
  decide

/-- C8 (amended): when an `energy_kcal` column exists, every returned
solution carries `totals["total_energy_kcal"]` equal to the grams-weighted
energy sum; when it does not exist, `solve` raises `KeyError
("energy_kcal")` instead of returning a `Solution`. -/
theorem C8_energy_metric (lp : LPModel → LPStatus) (df : DF) (s : SolverSettings)
    (fidCol amounts : List Val) (objVal : Val) (dir : Bool)
    (h1 : s.nutrition_constraints.nutrients.length ≠ 0)
    (h2 : s.nutrients_to_optimize.length ≠ 0)
    (h3 : firstMissing (s.nutrition_constraints.nutrients.map Prod.fst ++
      s.nutrients_to_optimize) df.colNames = none)
    (h4 : df.nrows ≠ 0)
    (h5 : dictGet df.cols "food_code" = some fidCol)
    (hdir : dirOf s.objective_type = some dir)
    (h7 : lp (buildModel df s dir) = .optimal amounts objVal) :
    (∀ (ecol : List Val) (sol : Solution),
      dictGet df.cols "energy_kcal" = some ecol →
      solve lp df s = .ok sol →
      dictGet sol.totals "total_energy_kcal" =
        some (Val.sumList (List.zipWith Val.mul amounts ecol)))
    ∧ (dictGet df.cols "energy_kcal" = none →
      solve lp df s = .error (.keyError "energy_kcal")) := by
  constructor
  · intro ecol sol h8 hsol
    rw [solve_optimal_eq lp df s fidCol ecol amounts objVal dir
      h1 h2 h3 h4 h5 hdir h7 h8] at hsol
    obtain rfl := Except.ok.inj hsol
    show dictGet _ "total_energy_kcal" = _
    rw [dictGet, if_neg (by decide), dictGet, if_neg (by decide),
        dictGet, if_pos rfl]
  · intro h8
    exact solve_no_energy lp df s fidCol amounts objVal dir
      h1 h2 h3 h4 h5 hdir h7 h8

/-- Witness for C8's amended theorem: scenario A with the energy column
present, and `dfNoEnergy` with it absent. -/
theorem C8_energy_metric_witness :
    (dictGet solA.totals "total_energy_kcal" =
      some (Val.sumList (List.zipWith Val.mul [Val.num 250, Val.num 0]
        [Val.num 2, Val.num (mkRat 3 2)])))
    ∧ (solve lpP dfNoEnergy setP = .error (.keyError "energy_kcal")) :=
  ⟨(C8_energy_metric lpA dfA setA [.num 1, .num 2] [.num 250, .num 0] (.num 500) true
      (by decide) (by decide) (by decide) (by decide) (by decide) (by decide)
      (by decide)).1 [.num 2, .num (mkRat 3 2)] solA (by decide) (by decide),
   (C8_energy_metric lpP dfNoEnergy setP [.num 7] [.num 250] (.num 50) true
      (by decide) (by decide) (by decide) (by decide) (by decide) (by decide)
      (by decide)).2 (by decide)⟩

/-- C10: implicit required columns.  If the four documented preconditions
pass but the table lacks `food_code` or `energy_kcal`, `solve` raises an
error (a `KeyError` during model building or extraction, or an earlier
backend error) instead of returning a `Solution`. -/
theorem C10_implicit_required_columns (lp : LPModel → LPStatus) (df : DF)
    (s : SolverSettings)
    (h1 : s.nutrition_constraints.nutrients.length ≠ 0)
    (h2 : s.nutrients_to_optimize.length ≠ 0)
    (h3 : firstMissing (s.nutrition_constraints.nutrients.map Prod.fst ++
      s.nutrients_to_optimize) df.colNames = none)
    (h4 : df.nrows ≠ 0)
    (hmiss : dictGet df.cols "food_code" = none ∨
      dictGet df.cols "energy_kcal" = none) :
    ∃ e, solve lp df s = .error e := by
  rcases hmiss with hf | he
  · exact ⟨_, solve_no_food_code lp df s h1 h2 h3 h4 hf⟩
  · cases hfc : dictGet df.cols "food_code" with
    | none => exact ⟨_, solve_no_food_code lp df s h1 h2 h3 h4 hfc⟩
    | some fid =>
      cases hd : dirOf s.objective_type with
      | none => exact ⟨_, solve_bad_objective_type lp df s fid h1 h2 h3 h4 hfc hd⟩
      | some dir =>
        cases hlp : lp (buildModel df s dir) with
        | optimal amounts objVal =>
          exact ⟨_, solve_no_energy lp df s fid amounts objVal dir
            h1 h2 h3 h4 hfc hd hlp he⟩
        | infeasible =>
          exact ⟨_, solve_infeasible lp df s fid dir h1 h2 h3 h4 hfc hd hlp⟩
        | other code =>
          exact ⟨_, solve_other_status lp df s fid dir code h1 h2 h3 h4 hfc hd hlp⟩

/-- Witness for C10: the preconditions pass on `dfNoEnergy`/`setP`, the
energy column is absent, and `solve` errors. -/
theorem C10_implicit_required_columns_witness :
    ∃ e, solve lpP dfNoEnergy setP = .error e :=
  C10_implicit_required_columns lpP dfNoEnergy setP
    (by decide) (by decide) (by decide) (by decide) (Or.inr (by decide))

/-! ### C9: parse round-trip

The repository has no formatter, so the formatting side is modelled from
the spec (section 8's round-trip property): `name,min,max` with `-` for an
infinite max and bounds written as exact numerals the `float` conversion
accepts (`a·10^(-k)` written `<a>e-<k>`, covering every non-negative
number with a finite decimal expansion). -/

/-- Decimal digit string of `n`, most significant first. -/
def renderNat (n : ℕ) : List Char :=
  if n = 0 then ['0'] else (Nat.digits 10 n).reverse.map Nat.digitChar

/-- Modelled from the spec: exact numeral for `a·10^(-k)`. -/
def renderDec (a k : ℕ) : List Char :=
  renderNat a ++ 'e' :: '-' :: renderNat k

/-- The rational `a·10^(-k)`. -/
def decVal (a k : ℕ) : ℚ := mkRat a (10 ^ k)

/-- Modelled from the spec: format a constraint line `name,min,max`, `-`
for an infinite max. -/
def formatLine (name : String) (mn : ℕ × ℕ) (mx : Option (ℕ × ℕ)) : String :=
  String.mk (name.data ++ ',' :: renderDec mn.1 mn.2 ++
    ',' :: (match mx with | none => ['-'] | some p => renderDec p.1 p.2))

/-- `digitVal` inverts `Nat.digitChar` on digits. -/
theorem digitVal_digitChar (d : ℕ) (h : d < 10) :
    digitVal (Nat.digitChar d) = d := by
  interval_cases d <;> rfl

/-- `Nat.digitChar` of a digit is a decimal digit character. -/
theorem isDigit_digitChar (d : ℕ) (h : d < 10) :
    (Nat.digitChar d).isDigit = true := by
  interval_cases d <;> decide

/-- The folded value of mapped digit characters is the fold of the digits. -/
theorem foldl_map_digitChar (ds : List ℕ) (hds : ∀ d ∈ ds, d < 10) :
    ∀ acc : ℕ, List.foldl (fun a c => a * 10 + digitVal c) acc (ds.map Nat.digitChar) =
      List.foldl (fun a d => a * 10 + d) acc ds := by
  induction ds with
  | nil => intro acc; rfl
  | cons d t ih =>
    intro acc
    simp only [List.map, List.foldl]
    rw [digitVal_digitChar d (hds d (List.mem_cons_self d t))]
    exact ih (fun x hx => hds x (List.mem_cons_of_mem d hx)) _

/-- Folding most-significant-first over reversed little-endian digits
recovers `Nat.ofDigits`. -/
theorem foldl_reverse_ofDigits (ds : List ℕ) :
    List.foldl (fun a d => a * 10 + d) 0 ds.reverse = Nat.ofDigits 10 ds := by
  induction ds with
  | nil => rfl
  | cons d t ih =>
    rw [List.reverse_cons, List.foldl_append, Nat.ofDigits_cons, ih]
    simp [List.foldl]
    ring

/-- The digit string of `n` reads back as `n`. -/
theorem natOfDigitChars_renderNat (n : ℕ) :
    natOfDigitChars (renderNat n) = n := by
  by_cases h : n = 0
  · subst h
    rfl
  · have hds : ∀ d ∈ (Nat.digits 10 n).reverse, d < 10 := by
      intro d hd
      exact Nat.digits_lt_base (by norm_num) (List.mem_reverse.mp hd)
    rw [renderNat, if_neg h]
    rw [natOfDigitChars, foldl_map_digitChar _ hds, foldl_reverse_ofDigits,
      Nat.ofDigits_digits]

/-- Every character of `renderNat n` is a decimal digit. -/
theorem renderNat_all_digits (n : ℕ) : ∀ c ∈ renderNat n, c.isDigit = true := by
  by_cases h : n = 0
  · subst h
    intro c hc
    simp [renderNat] at hc
    subst hc
    decide
  · rw [renderNat, if_neg h]
    intro c hc
    obtain ⟨d, hd, rfl⟩ := List.mem_map.mp hc
    exact isDigit_digitChar d (Nat.digits_lt_base (by norm_num) (List.mem_reverse.mp hd))

/-- `renderNat n` is never empty. -/
theorem renderNat_ne_nil (n : ℕ) : renderNat n ≠ [] := by
  by_cases h : n = 0
  · subst h
    decide
  · rw [renderNat, if_neg h]
    intro hc
    have := congrArg List.length hc
    simp [Nat.digits_ne_nil_iff_ne_zero.mpr h] at this

/-- A digit character is none of the separator characters the parsers
split on. -/
theorem isDigit_ne_special (c : Char) (h : c.isDigit = true) :
    c ≠ 'e' ∧ c ≠ 'E' ∧ c ≠ '.' ∧ c ≠ ',' ∧ c ≠ ' ' ∧ c ≠ '-' ∧ c ≠ '+' ∧
      c ≠ 'i' ∧ c ≠ 'n' := by
  refine ⟨?_, ?_, ?_, ?_, ?_, ?_, ?_, ?_, ?_⟩ <;>
    (intro he; subst he; exact absurd h (by decide))

/-- Splitting a list containing no separators yields that one chunk. -/
theorem splitChunks_no_sep (p : Char → Bool) :
    ∀ l : List Char, (∀ c ∈ l, p c = false) → splitChunks p l = [l] := by
  intro l
  induction l with
  | nil => intro _; rfl
  | cons c t ih =>
    intro h
    rw [splitChunks, if_neg (by simp [h c (List.mem_cons_self c t)]),
      ih (fun x hx => h x (List.mem_cons_of_mem c hx))]

/-- Splitting at the first separator peels off the leading chunk. -/
theorem splitChunks_append (p : Char → Bool) (sep : Char) (hsep : p sep = true) :
    ∀ (l1 l2 : List Char), (∀ c ∈ l1, p c = false) →
      splitChunks p (l1 ++ sep :: l2) = l1 :: splitChunks p l2 := by
  intro l1
  induction l1 with
  | nil =>
    intro l2 _
    rw [List.nil_append, splitChunks, if_pos hsep]
  | cons c t ih =>
    intro l2 h
    rw [List.cons_append, splitChunks,
      if_neg (by simp [h c (List.mem_cons_self c t)]),
      ih l2 (fun x hx => h x (List.mem_cons_of_mem c hx))]

/-- `renderNat` consists of digits only, hence `allDigits` holds. -/
theorem allDigits_renderNat (n : ℕ) : allDigits (renderNat n) = true := by
  simp only [allDigits, List.all_eq_true]
  exact renderNat_all_digits n

/-- `parseSig` reads `renderNat a` back as `a`. -/
theorem parseSig_renderNat (a : ℕ) :
    parseSig (renderNat a) = some (a : ℚ) := by
  have hnosep : ∀ c ∈ renderNat a, (fun c => decide (c = '.')) c = false := by
    intro c hc
    simp [(isDigit_ne_special c (renderNat_all_digits a c hc)).2.2.1]
  rw [parseSig, splitChunks_no_sep _ _ hnosep]
  change (if renderNat a ≠ [] ∧ allDigits (renderNat a) = true then
    some ((natOfDigitChars (renderNat a) : ℚ)) else none) = some (a : ℚ)
  rw [if_pos ⟨renderNat_ne_nil a, allDigits_renderNat a⟩, natOfDigitChars_renderNat]

/-- `parseSignedInt` reads `-<renderNat k>` back as `-k`. -/
theorem parseSignedInt_neg_renderNat (k : ℕ) :
    parseSignedInt ('-' :: renderNat k) = some (-(k : ℤ)) := by
  show (if ('-' : Char) = '-' then
      (if renderNat k ≠ [] ∧ allDigits (renderNat k) = true then
        some (-(natOfDigitChars (renderNat k) : ℤ)) else none)
    else if ('-' : Char) = '+' then
      (if renderNat k ≠ [] ∧ allDigits (renderNat k) = true then
        some ((natOfDigitChars (renderNat k) : ℤ)) else none)
    else if allDigits ('-' :: renderNat k) = true then
      some ((natOfDigitChars ('-' :: renderNat k) : ℤ)) else none) = some (-(k : ℤ))
  rw [if_pos rfl, if_pos ⟨renderNat_ne_nil k, allDigits_renderNat k⟩,
    natOfDigitChars_renderNat]

/-- `pyFloat` on an explicit leading character. -/
theorem pyFloat_eq_cons (c : Char) (rest : List Char) :
    pyFloat (String.mk (c :: rest)) =
      (if c = '-' then (pyFloatCore rest).map Val.neg
       else if c = '+' then pyFloatCore rest
       else pyFloatCore (c :: rest)) := rfl

/-- `pyFloat` reads the numeral `<a>e-<k>` back as `a·10^(-k)`. -/
theorem pyFloat_renderDec (a k : ℕ) :
    pyFloat (String.mk (renderDec a k)) = some (.num (decVal a k)) := by
  obtain ⟨c, cs, hcs⟩ : ∃ c cs, renderNat a = c :: cs := by
    cases h : renderNat a with
    | nil => exact absurd h (renderNat_ne_nil a)
    | cons c cs => exact ⟨c, cs, rfl⟩
  have hcdig : c.isDigit = true :=
    renderNat_all_digits a c (by rw [hcs]; exact List.mem_cons_self _ _)
  have hspec := isDigit_ne_special c hcdig
  have hrd : renderDec a k = c :: (cs ++ 'e' :: '-' :: renderNat k) := by
    rw [renderDec, hcs]
    rfl
  rw [show String.mk (renderDec a k) = String.mk (c :: (cs ++ 'e' :: '-' :: renderNat k))
      from by rw [hrd]]
  rw [pyFloat_eq_cons, if_neg hspec.2.2.2.2.2.1, if_neg hspec.2.2.2.2.2.2.1, ← hrd]
  have hne1 : renderDec a k ≠ "inf".data := by
    rw [hrd, show ("inf".data) = ['i', 'n', 'f'] from rfl]
    intro h
    injection h with h1 _
    exact hspec.2.2.2.2.2.2.2.1 h1
  have hne2 : renderDec a k ≠ "infinity".data := by
    rw [hrd, show ("infinity".data) = ['i', 'n', 'f', 'i', 'n', 'i', 't', 'y'] from rfl]
    intro h
    injection h with h1 _
    exact hspec.2.2.2.2.2.2.2.1 h1
  have hne3 : renderDec a k ≠ "nan".data := by
    rw [hrd, show ("nan".data) = ['n', 'a', 'n'] from rfl]
    intro h
    injection h with h1 _
    exact hspec.2.2.2.2.2.2.2.2 h1
  have hsplit : splitChunks (fun c => c = 'e' ∨ c = 'E') (renderDec a k) =
      [renderNat a, '-' :: renderNat k] := by
    have hnoe1 : ∀ x ∈ renderNat a,
        (fun c => decide (c = 'e' ∨ c = 'E')) x = false := by
      intro x hx
      have hs := isDigit_ne_special x (renderNat_all_digits a x hx)
      simp [hs.1, hs.2.1]
    have hnoe2 : ∀ x ∈ '-' :: renderNat k,
        (fun c => decide (c = 'e' ∨ c = 'E')) x = false := by
      intro x hx
      rcases List.mem_cons.mp hx with h | h
      · subst h
        decide
      · have hs := isDigit_ne_special x (renderNat_all_digits k x h)
        simp [hs.1, hs.2.1]
    rw [renderDec,
      splitChunks_append (fun c => decide (c = 'e' ∨ c = 'E')) 'e' (by decide)
        (renderNat a) ('-' :: renderNat k) hnoe1,
      splitChunks_no_sep (fun c => decide (c = 'e' ∨ c = 'E')) _ hnoe2]
  rw [pyFloatCore, if_neg (by simp [hne1, hne2]), if_neg hne3, hsplit]
  show ((parseSig (renderNat a)).bind fun s =>
    (parseSignedInt ('-' :: renderNat k)).bind fun x =>
      some (Val.num (s * (if 0 ≤ x then ((10 ^ x.toNat : ℕ) : ℚ)
        else mkRat 1 (10 ^ (-x).toNat))))) = some (.num (decVal a k))
  rw [parseSig_renderNat, parseSignedInt_neg_renderNat]
  simp only [Option.some_bind, Option.some.injEq, Val.num.injEq]
  by_cases hk : k = 0
  · subst hk
    rw [if_pos (by omega)]
    show (a : ℚ) * ((10 ^ (-(0 : ℤ)).toNat : ℕ) : ℚ) = decVal a 0
    norm_num [decVal, Rat.mkRat_one]
  · have hkpos : 0 < (k : ℤ) := by exact_mod_cast Nat.pos_of_ne_zero hk
    rw [if_neg (by omega)]
    have htn : ((-(-(k : ℤ))).toNat) = k := by
      rw [neg_neg]
      exact Int.toNat_natCast k
    rw [htn, decVal, Rat.mkRat_eq_div, Rat.mkRat_eq_div]
    push_cast
    rw [mul_one_div]

/-- `String.mk` undoes `String.data`. -/
theorem mk_data (s : String) : String.mk s.data = s := by
  cases s
  rfl

/-- `validate` succeeds on a non-empty name and admissible bounds. -/
theorem validate_ok (name : String) (mn mx : Val)
    (hname : name ≠ "")
    (h1 : ¬ (Val.lt mn (.num 0) = true ∨ Val.lt mx (.num 0) = true))
    (h2 : Val.lt mx mn = false) :
    NutrientConstraint.validate ⟨name, mn, mx⟩ none = .ok () := by
  simp only [NutrientConstraint.validate]
  simp [hname, h1, h2]
  rfl

/-- `renderDec` contains neither spaces nor commas. -/
theorem renderDec_no_space_comma (a k : ℕ) :
    ∀ c ∈ renderDec a k, ¬ c = ' ' ∧ ¬ c = ',' := by
  intro c hc
  rw [renderDec] at hc
  rcases List.mem_append.mp hc with h | h
  · have hs := isDigit_ne_special c (renderNat_all_digits a c h)
    exact ⟨hs.2.2.2.2.1, hs.2.2.2.1⟩
  · rcases List.mem_cons.mp h with h1 | h1
    · subst h1
      exact ⟨by decide, by decide⟩
    rcases List.mem_cons.mp h1 with h2 | h2
    · subst h2
      exact ⟨by decide, by decide⟩
    · have hs := isDigit_ne_special c (renderNat_all_digits k c h2)
      exact ⟨hs.2.2.2.2.1, hs.2.2.2.1⟩

/-- `renderDec` never reads as the bare `-` placeholder. -/
theorem renderDec_ne_dash (a k : ℕ) : renderDec a k ≠ ['-'] := by
  obtain ⟨c, cs, hcs⟩ : ∃ c cs, renderNat a = c :: cs := by
    cases h : renderNat a with
    | nil => exact absurd h (renderNat_ne_nil a)
    | cons c cs => exact ⟨c, cs, rfl⟩
  have hcdig : c.isDigit = true :=
    renderNat_all_digits a c (by rw [hcs]; exact List.mem_cons_self _ _)
  rw [renderDec, hcs]
  intro h
  injection h with h1 _
  exact (isDigit_ne_special c hcdig).2.2.2.2.2.1 h1

/-- Splitting the formatted line recovers name and the two numeral fields. -/
theorem formatLine_split (name : String) (a k : ℕ) (tail : List Char)
    (hnc : ∀ c ∈ name.data, ¬ c = ' ' ∧ ¬ c = ',')
    (htail : ∀ c ∈ tail, ¬ c = ' ' ∧ ¬ c = ',') :
    splitChunks (fun c => c = ',')
        (removeSpaces (name.data ++ ',' :: (renderDec a k ++ ',' :: tail))) =
      [name.data, renderDec a k, tail] := by
  have hnospace : ∀ c ∈ name.data ++ ',' :: (renderDec a k ++ ',' :: tail),
      (fun c => decide (¬ c = ' ')) c = true := by
    intro c hc
    rcases List.mem_append.mp hc with h | h
    · simp [(hnc c h).1]
    rcases List.mem_cons.mp h with h1 | h1
    · subst h1
      decide
    rcases List.mem_append.mp h1 with h2 | h2
    · simp [(renderDec_no_space_comma a k c h2).1]
    rcases List.mem_cons.mp h2 with h3 | h3
    · subst h3
      decide
    · simp [(htail c h3).1]
  rw [removeSpaces, List.filter_eq_self.mpr hnospace,
    splitChunks_append (fun c => decide (c = ',')) ',' (by decide) name.data
      (renderDec a k ++ ',' :: tail) (by
        intro x hx
        simp [(hnc x hx).2]),
    splitChunks_append (fun c => decide (c = ',')) ',' (by decide) (renderDec a k)
      tail (by
        intro x hx
        simp [(renderDec_no_space_comma a k x hx).2]),
    splitChunks_no_sep (fun c => decide (c = ',')) tail (by
      intro x hx
      simp [(htail x hx).2])]

/-- `decVal` is non-negative. -/
theorem decVal_nonneg (a k : ℕ) : 0 ≤ decVal a k := by
  rw [decVal, Rat.mkRat_eq_div]
  positivity

/-- C9 (amended): parse round-trip.  For every valid triple whose name is
non-empty and contains neither a space nor a comma (the counterexample
shows the claim fails otherwise) and whose bounds are written as exact
numerals `a·10^(-k)`, formatting as `name,min,max` (`-` for an infinite
max) and parsing back yields the equal constraint. -/
theorem C9_parse_roundtrip :
    (∀ (name : String) (a k b j : ℕ),
      name.data ≠ [] →
      (∀ c ∈ name.data, ¬ c = ' ' ∧ ¬ c = ',') →
      decVal a k ≤ decVal b j →
      NutrientConstraint.from_string pyFloat (formatLine name (a, k) (some (b, j))) none =
        .ok ⟨name, .num (decVal a k), .num (decVal b j)⟩)
    ∧ (∀ (name : String) (a k : ℕ),
      name.data ≠ [] →
      (∀ c ∈ name.data, ¬ c = ' ' ∧ ¬ c = ',') →
      NutrientConstraint.from_string pyFloat (formatLine name (a, k) none) none =
        .ok ⟨name, .num (decVal a k), .inf⟩) := by
  constructor
  · intro name a k b j hne hnc hle
    have hsp := formatLine_split name a k (renderDec b j) hnc
      (renderDec_no_space_comma b j)
    have hdata : (formatLine name (a, k) (some (b, j))).data =
        name.data ++ ',' :: (renderDec a k ++ ',' :: renderDec b j) := by
      show name.data ++ ',' :: renderDec a k ++ ',' :: renderDec b j = _
      rw [List.append_assoc, List.cons_append]
    have hmn : (if renderDec a k = ['-'] then some (Val.num 0)
        else pyFloat (String.mk (renderDec a k))) = some (.num (decVal a k)) := by
      rw [if_neg (renderDec_ne_dash a k), pyFloat_renderDec]
    have hmx : (if renderDec b j = ['-'] then some Val.inf
        else pyFloat (String.mk (renderDec b j))) = some (.num (decVal b j)) := by
      rw [if_neg (renderDec_ne_dash b j), pyFloat_renderDec]
    have hval : NutrientConstraint.validate
        ⟨String.mk name.data, .num (decVal a k), .num (decVal b j)⟩ none = .ok () := by
      rw [mk_data]
      apply validate_ok
      · intro h0
        exact hne (by simp [h0])
      · simp only [Val.lt, decide_eq_true_eq, not_or, not_lt]
        exact ⟨decVal_nonneg a k, decVal_nonneg b j⟩
      · simp only [Val.lt, decide_eq_false_iff_not, not_lt]
        exact hle
    have hok := from_string_ok pyFloat (formatLine name (a, k) (some (b, j)))
      name.data (renderDec a k) (renderDec b j) (.num (decVal a k)) (.num (decVal b j))
      (by rw [hdata]; exact hsp) hmn hmx hval
    rw [mk_data] at hok
    exact hok
  · intro name a k hne hnc
    have hsp := formatLine_split name a k ['-'] hnc
      (by intro c hc; simp at hc; subst hc; exact ⟨by decide, by decide⟩)
    have hdata : (formatLine name (a, k) none).data =
        name.data ++ ',' :: (renderDec a k ++ ',' :: ['-']) := by
      show name.data ++ ',' :: renderDec a k ++ ',' :: ['-'] = _
      rw [List.append_assoc, List.cons_append]
    have hmn : (if renderDec a k = ['-'] then some (Val.num 0)
        else pyFloat (String.mk (renderDec a k))) = some (.num (decVal a k)) := by
      rw [if_neg (renderDec_ne_dash a k), pyFloat_renderDec]
    have hmx : (if (['-'] : List Char) = ['-'] then some Val.inf
        else pyFloat (String.mk ['-'])) = some Val.inf := by
      rw [if_pos rfl]
    have hval : NutrientConstraint.validate
        ⟨String.mk name.data, .num (decVal a k), .inf⟩ none = .ok () := by
      rw [mk_data]
      apply validate_ok
      · intro h0
        exact hne (by simp [h0])
      · simp only [Val.lt, decide_eq_true_eq, not_or, not_lt]
        exact ⟨decVal_nonneg a k, by decide⟩
      · rfl
    have hok := from_string_ok pyFloat (formatLine name (a, k) none)
      name.data (renderDec a k) ['-'] (.num (decVal a k)) .inf
      (by rw [hdata]; exact hsp) hmn hmx hval
    rw [mk_data] at hok
    exact hok

/-- Counterexample for C9 as stated: the valid triple `("a b", 0, 1)`
(name non-empty, `0 ≤ 0 ≤ 1`) does not round-trip — the parser strips the
space, returning a constraint named `"ab"`. -/
theorem C9_parse_roundtrip_counterexample :
    (("a b" : String).data ≠ [] ∧ decVal 0 0 ≤ decVal 0 0)
    ∧ NutrientConstraint.from_string pyFloat (formatLine "a b" (0, 0) (some (0, 0))) none ≠
      .ok ⟨"a b", .num (decVal 0 0), .num (decVal 0 0)⟩ := by
  decide

/-- Witness for C9's amended theorem: `protein_g,100e-0,250e-0`. -/
theorem C9_parse_roundtrip_witness :
    NutrientConstraint.from_string pyFloat
      (formatLine "protein_g" (100, 0) (some (250, 0))) none =
      .ok ⟨"protein_g", .num (decVal 100 0), .num (decVal 250 0)⟩ :=
  C9_parse_roundtrip.1 "protein_g" 100 0 250 0 (by decide) (by decide) (by decide)

end FoodOpt
